import Mathlib

/-!
Verification of the Polymarket detection engine
(`src/polymarket/arbitrage_detector.py` and
`src/polymarket/volume_spike_detector.py`).

Monetary quantities, prices and scores are modelled as exact rationals (ℚ).
Python dictionary lookups with defaults (`d.get(k, default)`) are modelled as
`Option` fields read with `Option.getD`; Python truthiness tests on optional
dictionaries and strings (`if not x`) are modelled by explicit falsiness
predicates (missing or empty).  Wall-clock timestamps are passed explicitly as
rational parameters (`now`, `event_timestamp`, snapshot timestamps in hours).
-/

namespace Polymarket

/-! ## TradingCosts (arbitrage_detector.py, lines 45-81) -/

/-- Cost breakdown returned by `TradingCosts.calculate_trade_cost`. -/
structure TradeCosts where
  vig : ℚ
  gas : ℚ
  api : ℚ
  total : ℚ
  net_profit : ℚ
  roi : ℚ
  deriving DecidableEq

def VIG_PERCENT : ℚ := 2/100

def GAS_FEE_USD : ℚ := 1/2

def API_COST_USD : ℚ := 0

/-- `TradingCosts.calculate_trade_cost`. -/
def calculate_trade_cost (position_size gross_profit : ℚ) : TradeCosts :=
  let vig := gross_profit * VIG_PERCENT
  let gas := GAS_FEE_USD
  let api := API_COST_USD
  let total := vig + gas + api
  { vig := vig, gas := gas, api := api, total := total,
    net_profit := gross_profit - total,
    roi := if 0 < position_size then (gross_profit - total) / position_size else 0 }

/-! ## ProfitCalculator (arbitrage_detector.py, lines 84-165) -/

/-- The dictionary returned by `ProfitCalculator.calculate_opportunity`
(the constant field `meets_criteria=True` is omitted). -/
structure OppCalc where
  position_size : ℚ
  shares : ℚ
  expected_payout : ℚ
  gross_profit : ℚ
  vig_cost : ℚ
  gas_cost : ℚ
  net_profit : ℚ
  roi : ℚ
  deriving DecidableEq

def MINIMUM_ROI : ℚ := 20/100

def MAX_POSITION_USD : ℚ := 5000

def MIN_VOLUME_USD : ℚ := 10000

def MAX_VOLUME_USD : ℚ := 100000

/-- `ProfitCalculator.calculate_opportunity`. -/
def calculate_opportunity (current_price certain_outcome_price market_volume
    market_liquidity certainty_score : ℚ) : Option OppCalc :=
  if ¬ (MIN_VOLUME_USD ≤ market_volume ∧ market_volume ≤ MAX_VOLUME_USD) then none
  else if certainty_score < 95/100 then none
  else
    let max_position := min MAX_POSITION_USD
      (min (market_liquidity * (1/10)) (market_volume * (5/100)))
    if max_position < 100 then none
    else if current_price ≤ 0 ∨ 1 ≤ current_price then none
    else
      let shares := max_position / current_price
      let expected_payout := shares * certain_outcome_price
      let gross_profit := expected_payout - max_position
      if gross_profit ≤ 0 then none
      else
        let costs := calculate_trade_cost max_position gross_profit
        if costs.roi < MINIMUM_ROI then none
        else some {
          position_size := max_position, shares := shares,
          expected_payout := expected_payout, gross_profit := gross_profit,
          vig_cost := costs.vig, gas_cost := costs.gas,
          net_profit := costs.net_profit, roi := costs.roi }

/-- C1: Scenario A.  With market volume 75000, liquidity 20000, current price
0.65 (= 13/20), certain price 1.0 and certainty 1.0, `calculate_opportunity`
accepts and returns position_size = 2000 = min(5000, 0.10 x 20000, 0.05 x 75000),
shares = 2000/0.65 = 40000/13 (about 3076.92), gross_profit = 14000/13
(about 1076.92), vig = 0.02 x gross = 280/13 (about 21.54), gas = 0.50,
net_profit = 27427/26 (about 1054.88) and roi = 27427/52000 (about 0.527). -/
theorem calculate_opportunity_scenarioA :
    calculate_opportunity (13/20) 1 75000 20000 1 =
      some { position_size := 2000, shares := 40000/13, expected_payout := 40000/13,
             gross_profit := 14000/13, vig_cost := 280/13, gas_cost := 1/2,
             net_profit := 27427/26, roi := 27427/52000 } ∧
    (2000 : ℚ) = min 5000 (min ((1/10) * 20000) ((5/100) * 75000)) := by
  constructor
  · unfold calculate_opportunity calculate_trade_cost
    norm_num [MIN_VOLUME_USD, MAX_VOLUME_USD, MAX_POSITION_USD, MINIMUM_ROI,
      VIG_PERCENT, GAS_FEE_USD, API_COST_USD, min_def]
  · norm_num

/-! ## CertaintyValidator (arbitrage_detector.py, lines 168-225) -/

/-- The `(is_certain, certainty_score, reasoning)` triple returned by the
certainty validators. -/
structure CertaintyResult where
  is_certain : Bool
  score : ℚ
  reasoning : String
  deriving DecidableEq

/-- Python truthiness of an optional dictionary (`if not final_score`):
false when the value is missing (None) or an empty dict. -/
def dictTruthy (d : Option (List (String × Int))) : Bool :=
  match d with
  | none => false
  | some l => ¬ l.isEmpty

/-- Python truthiness of an optional string (`if not official_source`):
false when the value is missing (None) or the empty string. -/
def strTruthy (s : Option String) : Bool :=
  match s with
  | none => false
  | some s => ¬ s.isEmpty

/-- `CertaintyValidator.validate_sports_outcome`. -/
def validate_sports_outcome (game_status : String)
    (final_score : Option (List (String × Int)))
    (official_source : Option String) : CertaintyResult :=
  if game_status ≠ "FINAL" then ⟨false, 0, "Game not finished"⟩
  else if ¬ dictTruthy final_score then ⟨false, 0, "No final score available"⟩
  else if ¬ strTruthy official_source then
    ⟨false, 8/10, "No official source confirmation"⟩
  else ⟨true, 1, "Official final score from " ++ official_source.getD ""⟩

/-- `CertaintyValidator.validate_news_outcome`.  The formatted reasoning string
of the source is abbreviated; the claims only concern the flag and the score. -/
def validate_news_outcome (announcement_made : Bool) (source_credibility : ℚ)
    (multiple_sources : Bool) (reversible : Bool) : CertaintyResult :=
  if ¬ announcement_made then ⟨false, 0, "No official announcement"⟩
  else if reversible then ⟨false, 1/2, "Decision could be reversed"⟩
  else if source_credibility < 9/10 then ⟨false, 7/10, "Source not credible enough"⟩
  else
    let certainty := if multiple_sources then min 1 (source_credibility + 1/10)
      else source_credibility
    ⟨decide (95/100 ≤ certainty), certainty, "Official announcement"⟩

/-- C5: exact case analysis of `validate_sports_outcome`: non-FINAL status gives
(false, 0.0); a missing (or empty, i.e. Python-falsy) final score gives
(false, 0.0); a present final score without an official source gives
(false, 0.8); otherwise (true, 1.0). -/
theorem validate_sports_outcome_cases (game_status : String)
    (final_score : Option (List (String × Int))) (official_source : Option String) :
    (game_status ≠ "FINAL" →
      (validate_sports_outcome game_status final_score official_source).is_certain = false ∧
      (validate_sports_outcome game_status final_score official_source).score = 0) ∧
    (game_status = "FINAL" → dictTruthy final_score = false →
      (validate_sports_outcome game_status final_score official_source).is_certain = false ∧
      (validate_sports_outcome game_status final_score official_source).score = 0) ∧
    (game_status = "FINAL" → dictTruthy final_score = true →
      strTruthy official_source = false →
      (validate_sports_outcome game_status final_score official_source).is_certain = false ∧
      (validate_sports_outcome game_status final_score official_source).score = 8/10) ∧
    (game_status = "FINAL" → dictTruthy final_score = true →
      strTruthy official_source = true →
      (validate_sports_outcome game_status final_score official_source).is_certain = true ∧
      (validate_sports_outcome game_status final_score official_source).score = 1) := by
  refine ⟨fun h => ?_, fun h hf => ?_, fun h hf hs => ?_, fun h hf hs => ?_⟩
  · simp [validate_sports_outcome, h]
  · simp [validate_sports_outcome, h, hf]
  · simp [validate_sports_outcome, h, hf, hs]
  · simp [validate_sports_outcome, h, hf, hs]

/-- Witness for C5: a concrete run through each of the four cases. -/
theorem validate_sports_outcome_cases_witness :
    (validate_sports_outcome "IN_PROGRESS" none none).score = 0 ∧
    (validate_sports_outcome "FINAL" none none).score = 0 ∧
    (validate_sports_outcome "FINAL" (some [("a", 3)]) none).score = 8/10 ∧
    (validate_sports_outcome "FINAL" (some [("a", 3)]) (some "ESPN")).is_certain = true := by
  refine ⟨?_, ?_, ?_, ?_⟩
  · exact ((validate_sports_outcome_cases "IN_PROGRESS" none none).1 (by decide)).2
  · exact ((validate_sports_outcome_cases "FINAL" none none).2.1 rfl (by decide)).2
  · exact ((validate_sports_outcome_cases "FINAL" (some [("a", 3)]) none).2.2.1 rfl
      (by decide) (by decide)).2
  · exact ((validate_sports_outcome_cases "FINAL" (some [("a", 3)])
      (some "ESPN")).2.2.2 rfl (by decide) (by decide)).1

/-! ## ArbitrageDetector (arbitrage_detector.py, lines 228-377) -/

/-- One entry of the market's `tokens` list. -/
structure Token where
  token_id : Option String
  outcome : Option String
  price : Option ℚ
  deriving DecidableEq

/-- The nested `raw` dictionary consulted as a fallback for volume/liquidity. -/
structure RawData where
  volumeNum : Option ℚ
  volume : Option ℚ
  liquidityNum : Option ℚ
  liquidity : Option ℚ
  deriving DecidableEq

/-- A market record as consumed by the detectors.  `end_date` is the parsed
resolution deadline in hours (`none` models a missing or unparsable
`end_date_iso`/`endDate` field). -/
structure Market where
  id : Option String
  condition_id : Option String
  slug : Option String
  tokens : List Token
  volume : Option ℚ
  liquidity : Option ℚ
  raw : RawData
  end_date : Option ℚ
  deriving DecidableEq

/-- The certainty_info dictionary, dispatched on its `type` field. -/
inductive CertaintyInfo where
  | sports (game_status : String) (final_score : Option (List (String × Int)))
      (source : Option String)
  | news (announcement_made : Bool) (source_credibility : ℚ)
      (multiple_sources : Bool) (reversible : Bool)
  | unknown
  deriving DecidableEq

/-- `ArbitrageDetector._validate_certainty`. -/
def validate_certainty : CertaintyInfo → CertaintyResult
  | .sports g fs src => validate_sports_outcome g fs src
  | .news a c m r => validate_news_outcome a c m r
  | .unknown => ⟨false, 0, "Unknown event type"⟩

/-- An `ArbitrageOpportunity` record (datetime fields replaced by the rational
`latency_seconds` they determine). -/
structure ArbitrageOpportunity where
  market_id : String
  market_slug : String
  condition_id : String
  token_id : Option String
  outcome : String
  current_price : ℚ
  should_be_price : ℚ
  position_size_usd : ℚ
  expected_payout : ℚ
  gross_profit : ℚ
  vig_cost : ℚ
  gas_cost : ℚ
  net_profit : ℚ
  roi_percent : ℚ
  certainty_score : ℚ
  latency_seconds : ℚ
  volume_usd : ℚ
  liquidity_usd : ℚ
  reasoning : String
  deriving DecidableEq

/-- Lower-casing as used by the token search (Python `str.lower`). -/
def lowerStr (s : String) : String := s.map Char.toLower

/-- The token-search loop of `detect_opportunity`: first token whose outcome
label matches `event_outcome` case-insensitively. -/
def find_target_token (tokens : List Token) (event_outcome : String) : Option Token :=
  tokens.find? (fun t => lowerStr (t.outcome.getD "") = lowerStr event_outcome)

/-- Volume resolution of `detect_opportunity` (lines 282-289): the market's
`volume` field with the `raw.volumeNum` / `raw.volume` fallback chain. -/
def resolve_volume (m : Market) : ℚ :=
  let v := m.volume.getD 0
  if v = 0 then
    let a := m.raw.volumeNum.getD 0
    if a ≠ 0 then a else m.raw.volume.getD 0
  else v

/-- Liquidity resolution of `detect_opportunity` (lines 283-293). -/
def resolve_liquidity (m : Market) : ℚ :=
  let l := m.liquidity.getD 0
  if l = 0 then
    let a := m.raw.liquidityNum.getD 0
    if a ≠ 0 then a else m.raw.liquidity.getD 0
  else l

/-- `ArbitrageDetector.detect_opportunity`, with the detector state (the
append-only `detected_opportunities` list) passed explicitly and `datetime.now`
modelled by the parameter `now` (seconds). -/
def detect_opportunity (now : ℚ) (market : Market) (event_outcome : String)
    (event_timestamp : ℚ) (certainty_info : CertaintyInfo)
    (history : List ArbitrageOpportunity) :
    Option ArbitrageOpportunity × List ArbitrageOpportunity :=
  let latency := now - event_timestamp
  match find_target_token market.tokens event_outcome with
  | none => (none, history)
  | some target =>
    let current_price := target.price.getD 0
    if 95/100 ≤ current_price then (none, history)
    else
      let c := validate_certainty certainty_info
      if ¬ c.is_certain then (none, history)
      else
        let volume := resolve_volume market
        let liquidity := resolve_liquidity market
        match calculate_opportunity current_price 1
            (if volume ≠ 0 then volume else 50000)
            (if liquidity ≠ 0 then liquidity else 10000) c.score with
        | none => (none, history)
        | some oc =>
          let opp : ArbitrageOpportunity := {
            market_id := market.id.getD "",
            market_slug := market.slug.getD "",
            condition_id := market.condition_id.getD "",
            token_id := target.token_id,
            outcome := event_outcome,
            current_price := current_price,
            should_be_price := 1,
            position_size_usd := oc.position_size,
            expected_payout := oc.expected_payout,
            gross_profit := oc.gross_profit,
            vig_cost := oc.vig_cost,
            gas_cost := oc.gas_cost,
            net_profit := oc.net_profit,
            roi_percent := oc.roi * 100,
            certainty_score := c.score,
            latency_seconds := latency,
            volume_usd := volume,
            liquidity_usd := liquidity,
            reasoning := c.reasoning }
          (some opp, history ++ [opp])

/-- Helper: an accepted result of `calculate_opportunity` has
`roi = net_profit / position_size` and `roi` at least the 20 percent minimum. -/
theorem calc_accept_roi (p cp v l cs : ℚ) (r : OppCalc)
    (h : calculate_opportunity p cp v l cs = some r) :
    r.roi = r.net_profit / r.position_size ∧ (20/100 : ℚ) ≤ r.roi := by
  simp only [calculate_opportunity, calculate_trade_cost, MINIMUM_ROI, VIG_PERCENT,
    GAS_FEE_USD, API_COST_USD, MIN_VOLUME_USD, MAX_VOLUME_USD, MAX_POSITION_USD] at h
  split_ifs at h with h1 h2 h3 h4 h5 h6 h7 <;> try exact Option.noConfusion h
  · obtain rfl := Option.some_inj.mp h
    exact ⟨rfl, not_lt.mp h7⟩
  · exfalso
    have h100 := not_lt.mp h3
    have hle := not_lt.mp h6
    linarith

/-- Helper: a certainty score below 0.95 implies the dispatched validator also
reports `is_certain = false`. -/
theorem certainty_flag_of_low_score (info : CertaintyInfo)
    (h : (validate_certainty info).score < 95/100) :
    (validate_certainty info).is_certain = false := by
  cases info with
  | sports g fs src =>
    simp only [validate_certainty, validate_sports_outcome] at h ⊢
    split_ifs at h ⊢ <;> first | rfl | norm_num at h
  | news a c m r =>
    simp only [validate_certainty, validate_news_outcome] at h ⊢
    split_ifs at h ⊢ <;> first | rfl | exact decide_eq_false (not_le.mpr h)
  | unknown => rfl

/-- C2: every accepted result of `calculate_opportunity` (and hence every
opportunity emitted by `detect_opportunity`) has net_profit / position_size at
least 0.20, and the returned roi field is exactly that quotient, so any
candidate whose computed roi falls below 0.20 yields no result. -/
theorem accepted_roi_ge_minimum :
    (∀ p cp v l cs r, calculate_opportunity p cp v l cs = some r →
      r.roi = r.net_profit / r.position_size ∧ (20/100 : ℚ) ≤ r.net_profit / r.position_size) ∧
    (∀ now market eo ts info hist opp hist1,
      detect_opportunity now market eo ts info hist = (some opp, hist1) →
      (20/100 : ℚ) ≤ opp.net_profit / opp.position_size_usd) := by
  constructor
  · intro p cp v l cs r h
    have hr := calc_accept_roi p cp v l cs r h
    exact ⟨hr.1, hr.1 ▸ hr.2⟩
  · intro now market eo ts info hist opp hist1 hd
    simp only [detect_opportunity] at hd
    split at hd
    · exact Option.noConfusion (congrArg Prod.fst hd)
    · split_ifs at hd with hp hc h3 h4 <;>
        try exact Option.noConfusion (congrArg Prod.fst hd)
      all_goals split at hd
      all_goals try exact Option.noConfusion (congrArg Prod.fst hd)
      all_goals
        rename_i oc heq
        simp only [Prod.mk.injEq, Option.some.injEq] at hd
        obtain ⟨rfl, -⟩ := hd
        have hr := calc_accept_roi _ _ _ _ _ _ heq
        exact hr.1 ▸ hr.2

/-- Witness for C2: Scenario A discharges both hypotheses concretely; the
resulting net/position quotient is 27427/52000, at least 1/5. -/
theorem accepted_roi_ge_minimum_witness :
    ((20/100 : ℚ) ≤ (27427/26 : ℚ) / 2000) :=
  (accepted_roi_ge_minimum.1 (13/20) 1 75000 20000 1
    { position_size := 2000, shares := 40000/13, expected_payout := 40000/13,
      gross_profit := 14000/13, vig_cost := 280/13, gas_cost := 1/2,
      net_profit := 27427/26, roi := 27427/52000 }
    (by
      unfold calculate_opportunity calculate_trade_cost
      norm_num [MIN_VOLUME_USD, MAX_VOLUME_USD, MAX_POSITION_USD, MINIMUM_ROI,
        VIG_PERCENT, GAS_FEE_USD, API_COST_USD, min_def])).2

/-- C3: whenever the dispatched certainty validator yields a score strictly
below 0.95, `detect_opportunity` returns no opportunity and leaves the
detector's history unchanged, for every market and input. -/
theorem detect_none_of_low_certainty (now : ℚ) (market : Market) (eo : String)
    (ts : ℚ) (info : CertaintyInfo) (hist : List ArbitrageOpportunity)
    (h : (validate_certainty info).score < 95/100) :
    detect_opportunity now market eo ts info hist = (none, hist) := by
  have hflag := certainty_flag_of_low_score info h
  simp only [detect_opportunity]
  split
  · rfl
  · split_ifs with hp hc h3 h4 <;> first | rfl | simp [hflag] at hc

/-- Witness for C3: an unfinished sports game (score 0 < 0.95) produces no
opportunity for a concrete market with a priced Yes token. -/
theorem detect_none_of_low_certainty_witness :
    detect_opportunity 0
      { id := some "12345", condition_id := none, slug := some "game",
        tokens := [{ token_id := some "ty", outcome := some "Yes", price := some (13/20) }],
        volume := some 75000, liquidity := some 20000,
        raw := { volumeNum := none, volume := none, liquidityNum := none, liquidity := none },
        end_date := none }
      "Yes" 0 (.sports "IN_PROGRESS" none none) [] = (none, []) :=
  detect_none_of_low_certainty 0 _ "Yes" 0 _ [] (by
    simp [validate_certainty, validate_sports_outcome])

/-- C4: if the token matched case-insensitively to the event outcome carries a
price of at least 0.95, `detect_opportunity` returns no opportunity, regardless
of the certainty info and of the market's volume and liquidity. -/
theorem detect_none_of_high_price (now : ℚ) (market : Market) (eo : String)
    (ts : ℚ) (info : CertaintyInfo) (hist : List ArbitrageOpportunity)
    (target : Token) (hfind : find_target_token market.tokens eo = some target)
    (hp : (95/100 : ℚ) ≤ target.price.getD 0) :
    detect_opportunity now market eo ts info hist = (none, hist) := by
  simp only [detect_opportunity, hfind]
  rw [if_pos hp]

/-- Witness for C4: Scenario C, a matched token already priced at 0.97. -/
theorem detect_none_of_high_price_witness :
    detect_opportunity 0
      { id := some "12345", condition_id := none, slug := some "game",
        tokens := [{ token_id := some "ty", outcome := some "Yes", price := some (97/100) }],
        volume := some 75000, liquidity := some 20000,
        raw := { volumeNum := none, volume := none, liquidityNum := none, liquidity := none },
        end_date := none }
      "Yes" 0 (.sports "FINAL" (some [("a", 3)]) (some "ESPN")) [] = (none, []) :=
  detect_none_of_high_price 0 _ "Yes" 0 _ []
    { token_id := some "ty", outcome := some "Yes", price := some (97/100) }
    (by simp [find_target_token]) (by norm_num)

/-! ## VolumeHistory (volume_spike_detector.py, lines 28-137) -/

/-- A single volume observation (timestamps in hours as rationals). -/
structure VolumeSnapshot where
  timestamp : ℚ
  volume_24h : ℚ
  price : ℚ
  liquidity : ℚ
  deriving DecidableEq

/-- Per-market bounded history; `snapshots` models the
`deque(maxlen=window_size)`. -/
structure VolumeHistory where
  market_id : String
  window_size : Nat
  snapshots : List VolumeSnapshot
  deriving DecidableEq

/-- `VolumeHistory.add_snapshot`: append at the tail; the deque keeps only the
last `window_size` entries. -/
def VolumeHistory.add_snapshot (h : VolumeHistory) (now volume_24h price liquidity : ℚ) :
    VolumeHistory :=
  let l := h.snapshots ++ [⟨now, volume_24h, price, liquidity⟩]
  { h with snapshots := l.drop (l.length - h.window_size) }

/-- `VolumeHistory.get_avg_volume`. -/
def VolumeHistory.get_avg_volume (h : VolumeHistory) : ℚ :=
  if h.snapshots.isEmpty then 0
  else (h.snapshots.map (·.volume_24h)).sum / h.snapshots.length

/-- `VolumeHistory.get_current_volume`. -/
def VolumeHistory.get_current_volume (h : VolumeHistory) : ℚ :=
  match h.snapshots.getLast? with
  | none => 0
  | some s => s.volume_24h

/-- `VolumeHistory.get_volume_spike_ratio`. -/
def VolumeHistory.get_volume_spike_ratio (h : VolumeHistory) : ℚ :=
  let avg := h.get_avg_volume
  let current := h.get_current_volume
  if avg = 0 then 1 else current / avg

/-- `VolumeHistory.get_price_change` over the trailing `hours` window ending at
`now`. -/
def VolumeHistory.get_price_change (h : VolumeHistory) (now hours : ℚ) : ℚ :=
  if h.snapshots.length < 2 then 0
  else
    let cutoff := now - hours
    let recent := h.snapshots.filter (fun s => cutoff ≤ s.timestamp)
    if recent.length < 2 then 0
    else
      match recent.head?, recent.getLast? with
      | some o, some n => if o.price = 0 then 0 else ((n.price - o.price) / o.price) * 100
      | _, _ => 0

/-- `VolumeHistory.has_sufficient_history`. -/
def VolumeHistory.has_sufficient_history (h : VolumeHistory) (min_snapshots : Nat) : Bool :=
  min_snapshots ≤ h.snapshots.length

/-! ## VolumeSpikeDetector (volume_spike_detector.py, lines 140-412) -/

/-- The detector's constructor parameters. -/
structure DetectorConfig where
  min_spike_ratio : ℚ
  min_volume_usd : ℚ
  max_hours_to_deadline : ℚ
  history_window : Nat
  deriving DecidableEq

/-- The per-market history map `self.volume_history`, as an association list. -/
abbrev HistMap := List (String × VolumeHistory)

/-- Dictionary lookup in the history map. -/
def lookupHist : HistMap → String → Option VolumeHistory
  | [], _ => none
  | p :: ps, key => if p.1 = key then some p.2 else lookupHist ps key

/-- Dictionary write `hm[key] = h` (replace the entry if present, else add). -/
def setHist : HistMap → String → VolumeHistory → HistMap
  | [], key, h => [(key, h)]
  | p :: ps, key, h => if p.1 = key then (key, h) :: ps else p :: setHist ps key h

/-- The market id used by the volume detector:
`market.get('id', market.get('condition_id', 'unknown'))`. -/
def volMarketId (m : Market) : String :=
  m.id.getD (m.condition_id.getD "unknown")

/-- The body of the `update_volume_history` loop for one market. -/
def update_one (cfg : DetectorConfig) (now : ℚ) (hm : HistMap) (m : Market) : HistMap :=
  let market_id := volMarketId m
  let volume_24h := m.volume.getD 0
  if m.tokens.isEmpty then hm
  else
    let price := (m.tokens.head?.bind (·.price)).getD (1/2)
    let liquidity := m.liquidity.getD 0
    let h := (lookupHist hm market_id).getD ⟨market_id, cfg.history_window, []⟩
    setHist hm market_id (h.add_snapshot now volume_24h price liquidity)

/-- `VolumeSpikeDetector.update_volume_history`, with the map passed
explicitly and `datetime.now` modelled by `now`. -/
def update_volume_history (cfg : DetectorConfig) (now : ℚ) (markets : List Market)
    (hm : HistMap) : HistMap :=
  markets.foldl (update_one cfg now) hm

/-- `VolumeSpikeDetector.calculate_deadline_proximity`; `end_date = none`
models a missing or unparsable deadline string. -/
def calculate_deadline_proximity (cfg : DetectorConfig) (now : ℚ)
    (end_date : Option ℚ) : ℚ × ℚ :=
  match end_date with
  | none => (999999, 0)
  | some e =>
    let hours_remaining := e - now
    let proximity := if hours_remaining ≤ 0 then 100
      else if cfg.max_hours_to_deadline ≤ hours_remaining then 0
      else 100 * (1 - hours_remaining / cfg.max_hours_to_deadline)
    (hours_remaining, proximity)

/-- `VolumeSpikeDetector.calculate_signal_strength`. -/
def calculate_signal_strength (volume_spike_ratio price_change_1h
    deadline_proximity : ℚ) : ℚ :=
  let volume_score := min 40 ((volume_spike_ratio - 1) * 8)
  let price_score := min 30 (|price_change_1h| * 3)
  let deadline_score := deadline_proximity * (3/10)
  min 100 (volume_score + price_score + deadline_score)

/-- A detected `VolumeSpike` record (the formatted reasoning string and slug
truncation of the source are omitted; the claims do not concern them). -/
structure VolumeSpike where
  market_id : String
  token_id : Option String
  outcome : String
  current_volume_24h : ℚ
  avg_volume_24h : ℚ
  volume_spike_ratio : ℚ
  current_price : ℚ
  price_change_1h : ℚ
  hours_to_deadline : ℚ
  deadline_proximity_score : ℚ
  signal_strength : ℚ
  confidence : ℚ
  recommended_position_usd : ℚ
  max_loss_usd : ℚ
  expected_roi_percent : ℚ
  deriving DecidableEq

/-- The body of the `detect_spikes` loop for one market, run against the
already-updated history map.  The expected-ROI division is Python float
division: a zero denominator raises, modelled as `Except.error ()`. -/
def detect_spike_for_market (cfg : DetectorConfig) (now : ℚ) (hm : HistMap)
    (m : Market) : Except Unit (Option VolumeSpike) :=
  let market_id := volMarketId m
  match lookupHist hm market_id with
  | none => .ok none
  | some history =>
    if ¬ history.has_sufficient_history 5 then .ok none
    else
      let spike_ratio := history.get_volume_spike_ratio
      if spike_ratio < cfg.min_spike_ratio then .ok none
      else
        let current_volume := history.get_current_volume
        if current_volume < cfg.min_volume_usd then .ok none
        else
          let dp := calculate_deadline_proximity cfg now m.end_date
          if cfg.max_hours_to_deadline < dp.1 then .ok none
          else
            let price_change_1h := history.get_price_change now 1
            let signal_strength :=
              calculate_signal_strength spike_ratio price_change_1h dp.2
            if signal_strength < 50 then .ok none
            else
              match m.tokens.head? with
              | none => .ok none
              | some token =>
                let current_price := token.price.getD (1/2)
                let recommended_position := 1000 * (signal_strength / 50)
                let expected_roi : Except Unit ℚ :=
                  if current_price < 1/2 then
                    if current_price = 0 then .error ()
                    else .ok (((1 - current_price) / current_price) * 100)
                  else
                    if (1 : ℚ) - current_price = 0 then .error ()
                    else .ok (((current_price - 0) / (1 - current_price)) * 100)
                match expected_roi with
                | .error e => .error e
                | .ok roi =>
                  .ok (some {
                    market_id := market_id,
                    token_id := token.token_id,
                    outcome := token.outcome.getD "Yes",
                    current_volume_24h := current_volume,
                    avg_volume_24h := history.get_avg_volume,
                    volume_spike_ratio := spike_ratio,
                    current_price := current_price,
                    price_change_1h := price_change_1h,
                    hours_to_deadline := dp.1,
                    deadline_proximity_score := dp.2,
                    signal_strength := signal_strength,
                    confidence := min 100 ((history.snapshots.length : ℚ) * 5),
                    recommended_position_usd := recommended_position,
                    max_loss_usd := recommended_position,
                    expected_roi_percent := roi })

/-- The `detect_spikes` scan loop over all markets (collecting in order); any
raised division error aborts the scan as in Python. -/
def collect_spikes (cfg : DetectorConfig) (now : ℚ) (hm : HistMap) :
    List Market → Except Unit (List VolumeSpike)
  | [] => .ok []
  | m :: ms =>
    match detect_spike_for_market cfg now hm m with
    | .error e => .error e
    | .ok none => collect_spikes cfg now hm ms
    | .ok (some s) =>
      match collect_spikes cfg now hm ms with
      | .error e => .error e
      | .ok rest => .ok (s :: rest)

/-- Stable insertion used to model the final
`spikes.sort(key=..., reverse=True)`. -/
def insert_desc (x : VolumeSpike) : List VolumeSpike → List VolumeSpike
  | [] => [x]
  | y :: ys => if y.signal_strength < x.signal_strength then x :: y :: ys
      else y :: insert_desc x ys

/-- Sort spikes descending by signal strength. -/
def sort_spikes (l : List VolumeSpike) : List VolumeSpike :=
  l.foldr insert_desc []

/-- `VolumeSpikeDetector.detect_spikes`: update the history, scan every market,
sort the surviving spikes by descending signal strength.  Returns the raised
error, or the spike list, together with the updated history map. -/
def detect_spikes (cfg : DetectorConfig) (now : ℚ) (markets : List Market)
    (hm : HistMap) : Except Unit (List VolumeSpike) × HistMap :=
  let hm1 := update_volume_history cfg now markets hm
  (match collect_spikes cfg now hm1 markets with
   | .error e => .error e
   | .ok l => .ok (sort_spikes l), hm1)

/-- C6: evaluation of `calculate_signal_strength` at its own failing input.
The function's docstring promises a score in [0, 100] (`clamp(0,100,...)` in
the specification), but the code only takes `min(100, total)` with no lower
clamp: at spike ratio 0 with no price change and zero deadline proximity it
returns min(100, min(40, -8) + 0 + 0) = -8, which is negative. -/
theorem signal_strength_negative_at_zero_ratio :
    calculate_signal_strength 0 0 0 = -8 ∧ calculate_signal_strength 0 0 0 < 0 := by
  constructor <;> norm_num [calculate_signal_strength, min_def]

/-- A sequence of `add_snapshot` calls folded over a history. -/
def add_all (h : VolumeHistory) (xs : List VolumeSnapshot) : VolumeHistory :=
  xs.foldl (fun h s => h.add_snapshot s.timestamp s.volume_24h s.price s.liquidity) h

/-- Helper: the fold of `add_snapshot` keeps exactly the last `window_size`
entries of the concatenated stream, provided the starting history respects its
capacity. -/
theorem add_all_snapshots (xs : List VolumeSnapshot) (h : VolumeHistory)
    (hlen : h.snapshots.length ≤ h.window_size) :
    (add_all h xs).snapshots =
      (h.snapshots ++ xs).drop (h.snapshots.length + xs.length - h.window_size) := by
  induction xs generalizing h with
  | nil =>
    simp only [add_all, List.foldl_nil, List.append_nil, List.length_nil, Nat.add_zero,
      Nat.sub_eq_zero_of_le hlen, List.drop_zero]
  | cons s rest ih =>
    have hsnap : (h.add_snapshot s.timestamp s.volume_24h s.price s.liquidity).snapshots
        = (h.snapshots ++ [s]).drop (h.snapshots.length + 1 - h.window_size) := by
      simp [VolumeHistory.add_snapshot]
    have hW : (h.add_snapshot s.timestamp s.volume_24h s.price s.liquidity).window_size
        = h.window_size := rfl
    have hlen1 : (h.add_snapshot s.timestamp s.volume_24h s.price s.liquidity).snapshots.length
        = h.snapshots.length + 1 - (h.snapshots.length + 1 - h.window_size) := by
      rw [hsnap, List.length_drop, List.length_append, List.length_singleton]
    have hle1 : (h.add_snapshot s.timestamp s.volume_24h s.price s.liquidity).snapshots.length
        ≤ (h.add_snapshot s.timestamp s.volume_24h s.price s.liquidity).window_size := by
      rw [hlen1, hW]; omega
    have hrec := ih (h.add_snapshot s.timestamp s.volume_24h s.price s.liquidity) hle1
    have hstep : add_all h (s :: rest)
        = add_all (h.add_snapshot s.timestamp s.volume_24h s.price s.liquidity) rest := rfl
    rw [hstep, hrec, hsnap, hW]
    have hk : h.snapshots.length + 1 - h.window_size ≤ (h.snapshots ++ [s]).length := by
      rw [List.length_append, List.length_singleton]
      omega
    rw [List.length_drop, ← List.drop_append_of_le_length hk]
    rw [List.drop_drop, List.append_assoc, List.singleton_append]
    congr 1
    simp only [List.length_cons, List.length_append, List.length_singleton, List.length_nil]
    omega

/-- C7: starting from an empty history of capacity `window_size`, any sequence
of insertions leaves at most `window_size` snapshots, namely exactly the most
recent ones in insertion order: after `window_size + k` insertions the oldest
`k` are dropped and the suffix is kept unchanged (strict FIFO eviction). -/
theorem volume_history_fifo (window_size : Nat) (mid : String) (xs : List VolumeSnapshot) :
    (add_all ⟨mid, window_size, []⟩ xs).snapshots = xs.drop (xs.length - window_size) ∧
    (add_all ⟨mid, window_size, []⟩ xs).snapshots.length ≤ window_size := by
  have h := add_all_snapshots xs ⟨mid, window_size, []⟩ (by simp)
  simp only [List.nil_append, List.length_nil, Nat.zero_add] at h
  refine ⟨h, ?_⟩
  rw [h, List.length_drop]
  omega

/-- C8: the spike ratio is the most recent volume divided by the average over
all stored snapshots (including the most recent), is 1 when that average is
zero, and consequently any history of at least five equal-volume snapshots has
spike ratio exactly 1. -/
theorem spike_ratio_spec :
    (∀ h : VolumeHistory, h.get_avg_volume = 0 → h.get_volume_spike_ratio = 1) ∧
    (∀ h : VolumeHistory, h.get_avg_volume ≠ 0 →
      h.get_volume_spike_ratio = h.get_current_volume / h.get_avg_volume) ∧
    (∀ (h : VolumeHistory) (v : ℚ), 5 ≤ h.snapshots.length →
      (∀ s ∈ h.snapshots, s.volume_24h = v) → h.get_volume_spike_ratio = 1) := by
  refine ⟨fun h hz => ?_, fun h hz => ?_, fun h v h5 hall => ?_⟩
  · rw [VolumeHistory.get_volume_spike_ratio, if_pos hz]
  · rw [VolumeHistory.get_volume_spike_ratio, if_neg hz]
  · have hne : ¬ h.snapshots.isEmpty := by
      cases e : h.snapshots with
      | nil => rw [e] at h5; simp at h5
      | cons a l => simp
    have hmap : h.snapshots.map (·.volume_24h) = List.replicate h.snapshots.length v := by
      refine List.eq_replicate_iff.mpr ⟨by simp, ?_⟩
      intro b hb
      obtain ⟨s, hs, rfl⟩ := List.mem_map.mp hb
      exact hall s hs
    have hnz : (h.snapshots.length : ℚ) ≠ 0 := Nat.cast_ne_zero.mpr (by omega)
    have havg : h.get_avg_volume = v := by
      rw [VolumeHistory.get_avg_volume, if_neg hne, hmap, List.sum_replicate, nsmul_eq_mul]
      exact mul_div_cancel_left₀ v hnz
    have hcur : h.get_current_volume = v := by
      rw [VolumeHistory.get_current_volume]
      cases e : h.snapshots.getLast? with
      | none =>
        exact absurd (List.getLast?_eq_none_iff.mp e) (by simpa using hne)
      | some s =>
        obtain ⟨hne2, ha⟩ := List.mem_getLast?_eq_getLast (Option.mem_def.mpr e)
        exact hall s (ha ▸ List.getLast_mem hne2)
    rw [VolumeHistory.get_volume_spike_ratio, havg, hcur]
    by_cases hv : v = 0
    · rw [if_pos hv]
    · rw [if_neg hv, div_self hv]

/-- Witness for C8: a flat history of five snapshots of volume 7 has average 7,
hence spike ratio exactly 1. -/
theorem spike_ratio_spec_witness :
    (VolumeHistory.mk "m" 20
      (List.replicate 5 ⟨0, 7, 1, 0⟩)).get_volume_spike_ratio = 1 :=
  spike_ratio_spec.2.2 ⟨"m", 20, List.replicate 5 ⟨0, 7, 1, 0⟩⟩ 7
    (by simp) (by intro s hs; rw [List.eq_of_mem_replicate hs])

/-! ## Machinery for the update_volume_history length law (C9) -/

/-- A market contributes a snapshot under `key`: it has tokens and its
resolved id is `key`. -/
def affects (m : Market) (key : String) : Bool :=
  !m.tokens.isEmpty && (volMarketId m == key)

/-- Length of the stored history under `key` (0 when absent). -/
def histLenAt (hm : HistMap) (key : String) : Nat :=
  ((lookupHist hm key).map (fun h => h.snapshots.length)).getD 0

/-- Capacity of the stored history under `key` (the configured window when the
key is not yet tracked). -/
def capAt (cfg : DetectorConfig) (hm : HistMap) (key : String) : Nat :=
  ((lookupHist hm key).map (fun h => h.window_size)).getD cfg.history_window

/-- Every stored history respects its own capacity (true of all states the
detector can reach). -/
def boundedHist (hm : HistMap) : Prop :=
  ∀ p ∈ hm, (p : String × VolumeHistory).2.snapshots.length ≤ p.2.window_size

theorem lookup_set_same (hm : HistMap) (key : String) (h : VolumeHistory) :
    lookupHist (setHist hm key h) key = some h := by
  induction hm with
  | nil => simp [setHist, lookupHist]
  | cons p ps ih =>
    by_cases hp : p.1 = key <;> simp [setHist, lookupHist, hp, ih]

theorem lookup_set_ne (hm : HistMap) (key k2 : String) (h : VolumeHistory)
    (hne : k2 ≠ key) : lookupHist (setHist hm key h) k2 = lookupHist hm k2 := by
  induction hm with
  | nil => simp [setHist, lookupHist, Ne.symm hne]
  | cons p ps ih =>
    by_cases hp : p.1 = key
    · simp [setHist, lookupHist, hp, Ne.symm hne]
    · by_cases hp2 : p.1 = k2 <;> simp [setHist, lookupHist, hp, hp2, hne, ih]

theorem mem_setHist (hm : HistMap) (key : String) (h : VolumeHistory)
    (p : String × VolumeHistory) (hp : p ∈ setHist hm key h) :
    p = (key, h) ∨ p ∈ hm := by
  induction hm with
  | nil => simpa [setHist] using hp
  | cons q qs ih =>
    by_cases hq : q.1 = key
    · simp only [setHist, if_pos hq, List.mem_cons] at hp
      rcases hp with hp | hp
      · exact Or.inl hp
      · exact Or.inr (List.mem_cons_of_mem q hp)
    · simp only [setHist, if_neg hq, List.mem_cons] at hp
      rcases hp with hp | hp
      · exact Or.inr (hp ▸ List.mem_cons_self q qs)
      · rcases ih hp with hp2 | hp2
        · exact Or.inl hp2
        · exact Or.inr (List.mem_cons_of_mem q hp2)

theorem lookup_mem (hm : HistMap) (key : String) (h : VolumeHistory)
    (he : lookupHist hm key = some h) : (key, h) ∈ hm := by
  induction hm with
  | nil => simp [lookupHist] at he
  | cons q qs ih =>
    obtain ⟨q1, q2⟩ := q
    by_cases hq : q1 = key
    · subst hq
      simp [lookupHist] at he
      subst he
      exact List.mem_cons_self _ _
    · simp only [lookupHist, if_neg hq] at he
      exact List.mem_cons_of_mem _ (ih he)

theorem histLen_le_cap (cfg : DetectorConfig) (hm : HistMap) (key : String)
    (hb : boundedHist hm) : histLenAt hm key ≤ capAt cfg hm key := by
  unfold histLenAt capAt
  cases e : lookupHist hm key with
  | none => simp
  | some h => simpa using hb (key, h) (lookup_mem hm key h e)

theorem add_snapshot_length (h : VolumeHistory) (a b c d : ℚ) :
    (h.add_snapshot a b c d).snapshots.length
      = min (h.snapshots.length + 1) h.window_size := by
  simp only [VolumeHistory.add_snapshot, List.length_drop, List.length_append,
    List.length_singleton]
  omega

theorem histLen_update_one (cfg : DetectorConfig) (now : ℚ) (hm : HistMap)
    (m : Market) (key : String) :
    histLenAt (update_one cfg now hm m) key =
      if affects m key then min (histLenAt hm key + 1) (capAt cfg hm key)
      else histLenAt hm key := by
  unfold update_one affects
  by_cases ht : m.tokens.isEmpty
  · simp [ht]
  · have ht2 : m.tokens.isEmpty = false := by
      revert ht; cases m.tokens.isEmpty <;> simp
    by_cases hk : volMarketId m = key
    · subst hk
      rw [if_neg ht, if_pos (by simp [ht2])]
      unfold histLenAt capAt
      rw [lookup_set_same]
      cases e : lookupHist hm (volMarketId m) with
      | none => simp [e, add_snapshot_length]
      | some h0 => simp [e, add_snapshot_length]
    · rw [if_neg ht, if_neg (by simp [ht2, hk])]
      unfold histLenAt
      rw [lookup_set_ne _ _ _ _ (fun e => hk e.symm)]

theorem cap_update_one (cfg : DetectorConfig) (now : ℚ) (hm : HistMap)
    (m : Market) (key : String) :
    capAt cfg (update_one cfg now hm m) key = capAt cfg hm key := by
  unfold update_one
  by_cases ht : m.tokens.isEmpty
  · simp [ht]
  · rw [if_neg ht]
    by_cases hk : volMarketId m = key
    · subst hk
      unfold capAt
      rw [lookup_set_same]
      cases e : lookupHist hm (volMarketId m) with
      | none => simp [e, VolumeHistory.add_snapshot]
      | some h0 => simp [e, VolumeHistory.add_snapshot]
    · unfold capAt
      rw [lookup_set_ne _ _ _ _ (fun e => hk e.symm)]

theorem bounded_update_one (cfg : DetectorConfig) (now : ℚ) (hm : HistMap)
    (m : Market) (hb : boundedHist hm) : boundedHist (update_one cfg now hm m) := by
  unfold update_one
  by_cases ht : m.tokens.isEmpty
  · simpa [ht] using hb
  · rw [if_neg ht]
    intro p hp
    rcases mem_setHist _ _ _ p hp with hp2 | hp2
    · subst hp2
      show (VolumeHistory.add_snapshot _ _ _ _ _).snapshots.length ≤ _
      rw [add_snapshot_length]
      exact min_le_right _ _
    · exact hb p hp2

theorem histLen_update_list (cfg : DetectorConfig) (now : ℚ) (ms : List Market)
    (hm : HistMap) (key : String) (hb : boundedHist hm) :
    histLenAt (update_volume_history cfg now ms hm) key
      = min (histLenAt hm key + List.countP (fun m => affects m key) ms)
          (capAt cfg hm key)
    ∧ capAt cfg (update_volume_history cfg now ms hm) key = capAt cfg hm key
    ∧ boundedHist (update_volume_history cfg now ms hm) := by
  induction ms generalizing hm with
  | nil =>
    refine ⟨?_, rfl, hb⟩
    have := histLen_le_cap cfg hm key hb
    simp only [update_volume_history, List.foldl_nil, List.countP_nil, Nat.add_zero]
    omega
  | cons m ms ih =>
    have hb1 := bounded_update_one cfg now hm m hb
    have h1 := histLen_update_one cfg now hm m key
    have hc1 := cap_update_one cfg now hm m key
    obtain ⟨ihl, ihc, ihb⟩ := ih (update_one cfg now hm m) hb1
    have hfold : update_volume_history cfg now (m :: ms) hm
        = update_volume_history cfg now ms (update_one cfg now hm m) := by
      simp [update_volume_history]
    refine ⟨?_, by rw [hfold, ihc, hc1], hfold ▸ ihb⟩
    rw [hfold, ihl, h1, hc1, List.countP_cons]
    by_cases haff : affects m key = true
    · rw [if_pos haff, if_pos haff]
      have := histLen_le_cap cfg hm key hb
      omega
    · rw [if_neg haff, if_neg haff]
      omega

/-! ## Concrete instances for the C9 and C10 claims -/

/-- Detector with the default constructor parameters. -/
def defaultCfg : DetectorConfig := ⟨3, 50000, 72, 20⟩

/-- A market with one token, used to probe `update_volume_history`. -/
def c9Market : Market :=
  ⟨some "m", none, none, [⟨some "t", some "Yes", some (1/2)⟩], some 100, some 0,
   ⟨none, none, none, none⟩, none⟩

/-- History holding one snapshot of volume 0 for market m. -/
def c9Hist0 : HistMap := [("m", ⟨"m", 20, [⟨0, 0, 0, 0⟩]⟩)]

/-- History holding one snapshot of volume 100 for market m (the flat case). -/
def c9FlatHist0 : HistMap := [("m", ⟨"m", 20, [⟨0, 100, 1/2, 0⟩]⟩)]

/-- C9 counterexample: updating twice with the same one-market list appends two
snapshots (length 1 -> 3) yet, when the observed volume 100 equals the volume
already stored, `get_avg_volume` is exactly the same before and after both
calls, so the subsequent averages do not change. -/
theorem update_twice_flat_avg_unchanged :
    histLenAt (update_volume_history defaultCfg 0 [c9Market]
      (update_volume_history defaultCfg 0 [c9Market] c9FlatHist0)) "m"
      = histLenAt c9FlatHist0 "m" + 2 ∧
    (lookupHist (update_volume_history defaultCfg 0 [c9Market]
      (update_volume_history defaultCfg 0 [c9Market] c9FlatHist0)) "m").map
        VolumeHistory.get_avg_volume = some 100 ∧
    (lookupHist c9FlatHist0 "m").map VolumeHistory.get_avg_volume = some 100 := by
  refine ⟨?_, ?_, ?_⟩ <;>
      simp [update_volume_history, update_one, volMarketId, lookupHist, setHist,
        VolumeHistory.add_snapshot, VolumeHistory.get_avg_volume, histLenAt,
        defaultCfg, c9Market, c9FlatHist0] <;>
      norm_num

/-- C9 (amended): two successive identical update calls append two snapshots
per contributing occurrence of a market, so the tracked length law is
`len' = min (len + 2*count) capacity`; the subsequent averages can then change
even though the observed values did not (witnessed concretely below by volume
100 pushed onto a history holding volume 0: average 0 -> 50 -> 200/3), though
they stay unchanged in degenerate flat cases. -/
theorem update_twice_length_law (cfg : DetectorConfig) (n1 n2 : ℚ)
    (ms : List Market) (hm : HistMap) (key : String) (hb : boundedHist hm) :
    histLenAt (update_volume_history cfg n2 ms (update_volume_history cfg n1 ms hm)) key
      = min (histLenAt hm key + 2 * List.countP (fun m => affects m key) ms)
          (capAt cfg hm key) ∧
    ((lookupHist (update_volume_history defaultCfg 0 [c9Market]
        (update_volume_history defaultCfg 0 [c9Market] c9Hist0)) "m").map
          VolumeHistory.get_avg_volume = some (200/3) ∧
      (lookupHist (update_volume_history defaultCfg 0 [c9Market] c9Hist0) "m").map
          VolumeHistory.get_avg_volume = some 50 ∧
      (lookupHist c9Hist0 "m").map VolumeHistory.get_avg_volume = some 0) := by
  constructor
  · obtain ⟨h1, hc1, hb1⟩ := histLen_update_list cfg n1 ms hm key hb
    obtain ⟨h2, hc2, hb2⟩ :=
      histLen_update_list cfg n2 ms (update_volume_history cfg n1 ms hm) key hb1
    rw [h2, h1, hc1]
    omega
  · refine ⟨?_, ?_, ?_⟩ <;>
        simp [update_volume_history, update_one, volMarketId, lookupHist, setHist,
          VolumeHistory.add_snapshot, VolumeHistory.get_avg_volume, histLenAt,
          defaultCfg, c9Market, c9Hist0] <;>
        norm_num

/-- Witness for C9: the length law applied to the concrete flat setup
(1 stored snapshot, capacity 20, one contributing market): 1 + 2*1 = 3. -/
theorem update_twice_length_law_witness :
    histLenAt (update_volume_history defaultCfg 0 [c9Market]
      (update_volume_history defaultCfg 0 [c9Market] c9Hist0)) "m" = 3 := by
  have hb : boundedHist c9Hist0 := by
    intro p hp
    simp [c9Hist0] at hp
    subst hp
    simp
  have h := (update_twice_length_law defaultCfg 0 0 [c9Market] c9Hist0 "m" hb).1
  rw [h]
  have hcount : List.countP (fun m => affects m "m") [c9Market] = 1 := by
    simp [affects, volMarketId, c9Market, List.countP_cons]
  have hlen : histLenAt c9Hist0 "m" = 1 := by simp [histLenAt, lookupHist, c9Hist0]
  have hcap : capAt defaultCfg c9Hist0 "m" = 20 := by simp [capAt, lookupHist, c9Hist0]
  rw [hcount, hlen, hcap]
  omega

/-- A volume snapshot of 10000 at price 1, used to pre-load the C10 history. -/
def s10 : VolumeSnapshot := ⟨0, 10000, 1, 0⟩

/-- A market whose first token is priced exactly 1.0, volume 300000, deadline
already passed. -/
def c10Market : Market :=
  ⟨some "m", none, none, [⟨some "t", some "Yes", some 1⟩], some 300000, some 0,
   ⟨none, none, none, none⟩, some 0⟩

/-- Five flat snapshots already tracked for market m. -/
def c10Hist0 : HistMap := [("m", ⟨"m", 20, [s10, s10, s10, s10, s10]⟩)]

/-- The history after `detect_spikes` performs its internal update. -/
def c10H1 : VolumeHistory := ⟨"m", 20, [s10, s10, s10, s10, s10, ⟨0, 300000, 1, 0⟩]⟩

/-- C10: a concrete market that passes every spike filter (six snapshots,
spike ratio 36/7 >= 3, current volume 300000 >= 50000, deadline reached so
proximity 100 and hours 0 <= 72, signal strength 442/7 >= 50) but whose first
token price is exactly 1.0 makes the expected-ROI computation divide by
1 - 1 = 0: `detect_spikes` raises (models as `Except.error`) instead of
returning a result. -/
theorem detect_spikes_div_by_zero :
    (detect_spikes defaultCfg 0 [c10Market] c10Hist0).1 = .error () ∧
    update_volume_history defaultCfg 0 [c10Market] c10Hist0 = [("m", c10H1)] ∧
    c10H1.has_sufficient_history 5 = true ∧
    c10H1.get_volume_spike_ratio = 36/7 ∧ ((defaultCfg.min_spike_ratio : ℚ) ≤ 36/7) ∧
    c10H1.get_current_volume = 300000 ∧ (defaultCfg.min_volume_usd ≤ (300000 : ℚ)) ∧
    calculate_deadline_proximity defaultCfg 0 c10Market.end_date = (0, 100) ∧
    ((0 : ℚ) ≤ defaultCfg.max_hours_to_deadline) ∧
    c10H1.get_price_change 0 1 = 0 ∧
    calculate_signal_strength (36/7) 0 100 = 442/7 ∧ ((50 : ℚ) ≤ 442/7) ∧
    c10Market.tokens = [⟨some "t", some "Yes", some 1⟩] := by
  have hup : update_volume_history defaultCfg 0 [c10Market] c10Hist0 = [("m", c10H1)] := by
    simp [update_volume_history, update_one, volMarketId, lookupHist, setHist,
      VolumeHistory.add_snapshot, defaultCfg, c10Market, c10Hist0, c10H1, s10]
  have hsuff : c10H1.has_sufficient_history 5 = true := by
    simp [VolumeHistory.has_sufficient_history, c10H1]
  have hratio : c10H1.get_volume_spike_ratio = 36/7 := by
    simp [VolumeHistory.get_volume_spike_ratio, VolumeHistory.get_avg_volume,
      VolumeHistory.get_current_volume, c10H1, s10]
    norm_num
  have hcur : c10H1.get_current_volume = 300000 := by
    simp [VolumeHistory.get_current_volume, c10H1, s10]
  have hprox : calculate_deadline_proximity defaultCfg 0 c10Market.end_date = (0, 100) := by
    simp [calculate_deadline_proximity, defaultCfg, c10Market]
  have hchange : c10H1.get_price_change 0 1 = 0 := by
    simp [VolumeHistory.get_price_change, c10H1, s10]
  have hsig : calculate_signal_strength (36/7) 0 100 = 442/7 := by
    norm_num [calculate_signal_strength, min_def]
  have hg1 : ¬ ((36/7 : ℚ) < defaultCfg.min_spike_ratio) := by
    norm_num [defaultCfg]
  have hg2 : ¬ ((300000 : ℚ) < defaultCfg.min_volume_usd) := by
    norm_num [defaultCfg]
  have hg3 : ¬ (defaultCfg.max_hours_to_deadline < (0 : ℚ)) := by
    norm_num [defaultCfg]
  have hg4 : ¬ ((442/7 : ℚ) < 50) := by norm_num
  have hg5 : ¬ ((1 : ℚ) < 1/2) := by norm_num
  have hg5b : ¬ ((1 : ℚ) < 2⁻¹) := by norm_num
  have hdet : detect_spike_for_market defaultCfg 0 [("m", c10H1)] c10Market
      = .error () := by
    have hlook : lookupHist [("m", c10H1)] (volMarketId c10Market) = some c10H1 := by
      simp [lookupHist, volMarketId, c10Market]
    simp only [detect_spike_for_market, hlook, hsuff, hratio, hcur, hprox, hchange, hsig]
    simp [hg1, hg2, hg3, hg4, hg5, hg5b, c10Market]
  refine ⟨?_, hup, hsuff, hratio, by norm_num [defaultCfg], hcur,
    by norm_num [defaultCfg], hprox, by norm_num [defaultCfg], hchange, hsig,
    by norm_num, rfl⟩
  simp only [detect_spikes, hup, collect_spikes, hdet]

end Polymarket
